import Mathlib

/-!
Shallow embedding of `src/app/api/admin/thesis/[id]/route.js`: the PUT
handler that updates a thesis record. The embedding models the JSON body
(after `req.json()`), the Zod schema `updateThesisSchema`, the Prisma store
(theses, users, history), JavaScript truthiness and the runtime errors the
handler can throw (`SyntaxError` from `req.json`, `ZodError` from
`schema.parse`, `TypeError` from reading a property of `undefined`), and the
`try`/`catch` that converts them to HTTP responses.
-/

/-- JSON values as produced by `req.json()` (JavaScript `JSON.parse`).
Numbers are modelled as integers; no claim depends on fractional numbers. -/
inductive Json where
  | null : Json
  | bool (b : Bool) : Json
  | num (n : Int) : Json
  | str (s : String) : Json
  | arr (elems : List Json) : Json
  | obj (fields : List (String × Json)) : Json

/-- Outcome of reading the request body: `req.json()` either yields a JSON
value or throws a `SyntaxError` (empty body or text that is not JSON). -/
inductive BodyInput where
  | malformed : BodyInput
  | json (j : Json) : BodyInput

/-- JavaScript falsiness of a JSON value, as tested by `if (!body)`. -/
def jsFalsy : Json → Bool
  | .null => true
  | .bool b => !b
  | .num n => n == 0
  | .str s => s == ""
  | .arr _ => false
  | .obj _ => false

/-- One segment of a Zod issue path: an object key or an array index. -/
inductive PathKey where
  | field (k : String) : PathKey
  | index (i : Nat) : PathKey
deriving DecidableEq, Repr

/-- A Zod validation issue, as found in `ZodError.errors`. -/
structure ZodIssue where
  code : String
  path : List PathKey
  message : String
deriving DecidableEq, Repr

/-- Property lookup on a parsed JSON object; with duplicate keys,
`JSON.parse` keeps the last occurrence. Absent keys read as `undefined`,
modelled as `none`. -/
def getField (fields : List (String × Json)) (k : String) : Option Json :=
  fields.foldl (fun acc kv => if kv.1 = k then some kv.2 else acc) none

/-- Checker for `z.string().min(1).optional()` (the `title` and
`author_name` fields of `updateThesisSchema`). -/
def checkOptMinStr (fields : List (String × Json)) (k : String) :
    Option String × List ZodIssue :=
  match getField fields k with
  | none => (none, [])
  | some (.str s) =>
      if s.length ≥ 1 then (some s, [])
      else (none, [⟨"too_small", [.field k],
        "String must contain at least 1 character(s)"⟩])
  | some _ => (none, [⟨"invalid_type", [.field k], "Expected string"⟩])

/-- Checker for `z.string().optional()` (the `category` and `abstract`
fields of `updateThesisSchema`). -/
def checkOptStr (fields : List (String × Json)) (k : String) :
    Option String × List ZodIssue :=
  match getField fields k with
  | none => (none, [])
  | some (.str s) => (some s, [])
  | some _ => (none, [⟨"invalid_type", [.field k], "Expected string"⟩])

/-- Element-wise check of `z.array(z.string())`: collects the string
elements and an issue (with the array index in its path) for every
non-string element. -/
def checkStrElems (k : String) : Nat → List Json → List String × List ZodIssue
  | _, [] => ([], [])
  | i, j :: rest =>
      match j with
      | .str s => (s :: (checkStrElems k (i + 1) rest).1, (checkStrElems k (i + 1) rest).2)
      | _ => ((checkStrElems k (i + 1) rest).1,
          ⟨"invalid_type", [.field k, .index i], "Expected string"⟩ ::
            (checkStrElems k (i + 1) rest).2)

/-- Checker for `z.array(z.string()).optional()` (the `keywords` field). -/
def checkOptStrArray (fields : List (String × Json)) (k : String) :
    Option (List String) × List ZodIssue :=
  match getField fields k with
  | none => (none, [])
  | some (.arr elems) =>
      match checkStrElems k 0 elems with
      | (vs, []) => (some vs, [])
      | (_, e :: es) => (none, e :: es)
  | some _ => (none, [⟨"invalid_type", [.field k], "Expected array"⟩])

/-- Checker for `z.enum(["Pending", "Approved", "Rejected"]).optional()`
(the `status` field). -/
def checkOptEnum (fields : List (String × Json)) (k : String)
    (allowed : List String) : Option String × List ZodIssue :=
  match getField fields k with
  | none => (none, [])
  | some (.str s) =>
      if s ∈ allowed then (some s, [])
      else (none, [⟨"invalid_enum_value", [.field k], "Invalid enum value"⟩])
  | some _ => (none, [⟨"invalid_type", [.field k], "Expected string"⟩])

/-- The result of `updateThesisSchema.parse(body)` on success: every field
is optional, so each is `none` when absent from the body. -/
structure ParsedBody where
  title : Option String
  author_name : Option String
  category : Option String
  keywords : Option (List String)
  abstract : Option String
  status : Option String
deriving DecidableEq, Repr

/-- `updateThesisSchema.parse`: a non-object input yields a single
root-path `invalid_type` issue; an object input is checked field by field
in schema declaration order and all issues are reported together
(`ZodError.errors`). Unknown keys are stripped, never rejected. -/
def zodParse (j : Json) : Except (List ZodIssue) ParsedBody :=
  match j with
  | .obj fields =>
      match (checkOptMinStr fields "title").2 ++
          (checkOptMinStr fields "author_name").2 ++
          (checkOptStr fields "category").2 ++
          (checkOptStrArray fields "keywords").2 ++
          (checkOptStr fields "abstract").2 ++
          (checkOptEnum fields "status" ["Pending", "Approved", "Rejected"]).2 with
      | [] => .ok ⟨(checkOptMinStr fields "title").1,
          (checkOptMinStr fields "author_name").1,
          (checkOptStr fields "category").1,
          (checkOptStrArray fields "keywords").1,
          (checkOptStr fields "abstract").1,
          (checkOptEnum fields "status" ["Pending", "Approved", "Rejected"]).1⟩
      | e :: es => .error (e :: es)
  | .null => .error [⟨"invalid_type", [], "Expected object, received null"⟩]
  | _ => .error [⟨"invalid_type", [], "Expected object"⟩]

/-- A user row (`prisma.user`), as used by the handler: primary key,
unique `username`, `email`. -/
structure User where
  id : Nat
  username : String
  email : String
deriving DecidableEq, Repr

/-- A thesis row (`prisma.thesis`) as returned by
`prisma.thesis.findUnique({ where: { thesis_id } })` — scalar fields only,
no `author` relation (the query has no `include`). Timestamps are epoch
milliseconds, the value inside a JavaScript `Date`. -/
structure Thesis where
  thesis_id : Nat
  title : String
  category : String
  keywords : List String
  abstract : String
  status : String
  author_id : Nat
  created_at : Nat
  updated_at : Nat
deriving DecidableEq, Repr

/-- A history (audit) row created by `prisma.history.create`. -/
structure HistoryEntry where
  user_id : Nat
  action : String
  description : String
deriving DecidableEq, Repr

/-- The relational store reachable from the handler. -/
structure DB where
  theses : List Thesis
  users : List User
  history : List HistoryEntry
deriving DecidableEq, Repr

/-- `prisma.thesis.findUnique({ where: { thesis_id: id } })`. -/
def findThesis (db : DB) (id : Nat) : Option Thesis :=
  db.theses.find? (fun t => t.thesis_id == id)

/-- `prisma.user.findUnique({ where: { username } })`. -/
def findUser (db : DB) (username : String) : Option User :=
  db.users.find? (fun u => u.username == username)

/-! ### Serialization: `BigInt.prototype.toString` and `Date.prototype.toISOString`

`updatedThesis.thesis_id.toString()` renders a BigInt in decimal;
`Date.prototype.toISOString` renders epoch milliseconds as
`YYYY-MM-DDTHH:mm:ss.sssZ`. ECMA-262 defines `YearFromTime` as the largest
year whose start does not exceed the time value, and the month/day by the
same kind of search; the embedding implements that search directly (with
explicit fuel so all definitions are structural and computable). -/

/-- The decimal digit character for `n < 10`. -/
def digitChar (n : Nat) : Char := Char.ofNat (48 + n)

/-- Decimal digit list of a natural number, most significant first;
`fuel` only bounds the recursion depth (any `fuel > n` gives the value). -/
def natDigitsAux : Nat → Nat → List Char
  | 0, _ => []
  | fuel + 1, n =>
      if n < 10 then [digitChar n]
      else natDigitsAux fuel (n / 10) ++ [digitChar (n % 10)]

/-- Decimal digit list of a natural number (`BigInt.toString(10)` digits). -/
def natDigits (n : Nat) : List Char := natDigitsAux (n + 1) n

/-- `BigInt.prototype.toString` for the non-negative thesis id. -/
def bigIntToString (n : Nat) : String := ⟨natDigits n⟩

/-- Zero-pad a number to a fixed width, as `toISOString` does for each
date-time component. -/
def padNat (w n : Nat) : List Char :=
  List.replicate (w - (natDigits n).length) '0' ++ natDigits n

/-- Gregorian leap-year test (ECMA-262 `DaysInYear`). -/
def isLeap (y : Nat) : Bool := (y % 4 == 0 && y % 100 != 0) || y % 400 == 0

/-- Number of days in year `y`. -/
def daysInYear (y : Nat) : Nat := if isLeap y then 366 else 365

/-- Number of days in month `m` (1-based) of year `y`. -/
def monthLen (y m : Nat) : Nat :=
  if m = 2 then (if isLeap y then 29 else 28)
  else if m = 4 ∨ m = 6 ∨ m = 9 ∨ m = 11 then 30 else 31

/-- Find the year containing a day count from 1970-01-01: repeatedly peel
whole years (ECMA-262 `YearFromTime` as a search). Returns the year and
the remaining day-of-year (0-based). -/
def yearLoop : Nat → Nat → Nat → Nat × Nat
  | 0, y, d => (y, d)
  | fuel + 1, y, d =>
      if d < daysInYear y then (y, d)
      else yearLoop fuel (y + 1) (d - daysInYear y)

/-- Find the month containing a day-of-year: repeatedly peel whole months
(ECMA-262 `MonthFromTime` as a search). Returns the month (1-based) and
the remaining day-of-month (0-based). -/
def monthLoop : Nat → Nat → Nat → Nat → Nat × Nat
  | 0, _, m, d => (m, d)
  | fuel + 1, y, m, d =>
      if d < monthLen y m then (m, d)
      else monthLoop fuel y (m + 1) (d - monthLen y m)

/-- Civil date (year, month, day) from a day count since 1970-01-01. -/
def civilFromDays (days : Nat) : Nat × Nat × Nat :=
  let yd := yearLoop (days + 1) 1970 days
  let md := monthLoop 11 yd.1 1 yd.2
  (yd.1, md.1, md.2 + 1)

/-- `Date.prototype.toISOString` for a non-negative epoch-millisecond time
value: `YYYY-MM-DDTHH:mm:ss.sssZ`. -/
def toISOString (t : Nat) : String :=
  let ms := t % 1000
  let sec := t / 1000 % 60
  let minute := t / 60000 % 60
  let hour := t / 3600000 % 24
  let ymd := civilFromDays (t / 86400000)
  ⟨padNat 4 ymd.1 ++ '-' :: padNat 2 ymd.2.1 ++ '-' :: padNat 2 ymd.2.2 ++
    'T' :: padNat 2 hour ++ ':' :: padNat 2 minute ++ ':' :: padNat 2 sec ++
    '.' :: padNat 3 ms ++ ['Z']⟩

/-! ### The PUT handler -/

/-- The `thesisResponse` object built on the success path (route.js
lines 65–75): all-string identifier and timestamps. -/
structure ThesisResponse where
  thesis_id : String
  title : String
  author_name : String
  category : String
  keywords : List String
  abstract : String
  status : String
  created_at : String
  updated_at : String
deriving DecidableEq, Repr

/-- The JSON bodies the handler can answer with. -/
inductive ResponseBody where
  | messageOnly (message : String) : ResponseBody
  | validationError (message : String) (errors : List ZodIssue) : ResponseBody
  | internalError (message : String) (error : String) : ResponseBody
  | success (message : String) (thesis : ThesisResponse) : ResponseBody
deriving DecidableEq, Repr

/-- An HTTP response as produced by `NextResponse.json`. -/
structure HttpResponse where
  status : Nat
  body : ResponseBody
deriving DecidableEq, Repr

/-- The exceptions that can escape to the handler's `catch` block. -/
inductive JsError where
  | jsonParseError (msg : String) : JsError
  | zodError (issues : List ZodIssue) : JsError
  | typeError (msg : String) : JsError
deriving DecidableEq, Repr

/-- Database writes, in execution order. -/
inductive DbEffect where
  | updateThesis (id : Nat) (record : Thesis) : DbEffect
  | insertHistory (entry : HistoryEntry) : DbEffect
deriving DecidableEq, Repr

/-- The `data` object of `prisma.thesis.update` (route.js lines 52–62):
each body field merged over the stored row with `??`, and
`author_id: author?.id ?? thesis.author_id`. `created_at` is untouched.
Modelled from the spec: the Prisma schema is not under `src/`; per the
spec's "creation and update timestamps" and its idempotence-modulo-
`updated_at` property, the update stamps `updated_at` with the current
time (`now`), as a Prisma `@updatedAt` column does. -/
def mergeThesis (t : Thesis) (p : ParsedBody) (authorId : Option Nat)
    (now : Nat) : Thesis :=
  { thesis_id := t.thesis_id
    title := p.title.getD t.title
    category := p.category.getD t.category
    keywords := p.keywords.getD t.keywords
    abstract := p.abstract.getD t.abstract
    status := p.status.getD t.status
    author_id := authorId.getD t.author_id
    created_at := t.created_at
    updated_at := now }

/-- Replace the thesis row with the given id (`prisma.thesis.update`'s
write). -/
def writeThesis (db : DB) (id : Nat) (record : Thesis) : DB :=
  { db with theses := db.theses.map (fun t => if t.thesis_id == id then record else t) }

/-- The body of the `try` block of the PUT handler, in source order.
Returns the outcome (a response, or the error reaching `catch`), the
database after the call, and the list of database writes performed.
`id` is the path parameter after `BigInt(id)`; `session` is the user
returned by `getUserFromSession` (the `withRolePermission` wrapper admits
only authenticated callers); `now` is the clock reading used for
`@updatedAt`. -/
def runPut (id : Nat) (bodyInput : BodyInput) (session : User) (now : Nat)
    (db : DB) : Except JsError HttpResponse × DB × List DbEffect :=
  match bodyInput with
  | .malformed =>
      (.error (.jsonParseError "Unexpected end of JSON input"), db, [])
  | .json body =>
    if jsFalsy body then
      (.ok ⟨400, .messageOnly "Request body is empty or malformed"⟩, db, [])
    else
      match zodParse body with
      | .error issues => (.error (.zodError issues), db, [])
      | .ok parsedBody =>
        match findThesis db id with
        | none => (.ok ⟨404, .messageOnly "Thesis not found"⟩, db, [])
        | some thesis =>
          let authorStep : Except HttpResponse (Option User) :=
            match parsedBody.author_name with
            | some nm =>
                if nm ≠ "" then
                  match findUser db nm with
                  | none => .error ⟨404, .messageOnly "Author not found"⟩
                  | some u => .ok (some u)
                else .ok none
            | none => .ok none
          match authorStep with
          | .error resp => (.ok resp, db, [])
          | .ok author =>
            let updatedThesis :=
              mergeThesis thesis parsedBody (author.map (fun u => u.id)) now
            let db1 := writeThesis db id updatedThesis
            let fx1 := [DbEffect.updateThesis id updatedThesis]
            match author with
            | none =>
                -- `thesis.author` is `undefined` (the `findUnique` had no
                -- `include`), so `thesis.author.username` throws.
                (.error (.typeError
                  "Cannot read properties of undefined (reading username)"),
                 db1, fx1)
            | some a =>
              let tr : ThesisResponse :=
                { thesis_id := bigIntToString updatedThesis.thesis_id
                  title := updatedThesis.title
                  author_name := a.username
                  category := updatedThesis.category
                  keywords := updatedThesis.keywords
                  abstract := updatedThesis.abstract
                  status := updatedThesis.status
                  created_at := toISOString updatedThesis.created_at
                  updated_at := toISOString updatedThesis.updated_at }
              let entry : HistoryEntry :=
                { user_id := session.id
                  action := "Updated Thesis"
                  description := "Thesis titled \"" ++ updatedThesis.title ++
                    "\" updated by " ++ session.email }
              let db2 := { db1 with history := db1.history ++ [entry] }
              (.ok ⟨200, .success "Thesis updated successfully" tr⟩,
               db2, fx1 ++ [.insertHistory entry])

/-- The catch block (route.js lines 92–101): a `ZodError` becomes a 400
with the issue list; every other error becomes a 500. -/
def catchResponse : JsError → HttpResponse
  | .zodError issues => ⟨400, .validationError "Validation failed" issues⟩
  | .jsonParseError m => ⟨500, .internalError "Internal Server Error" m⟩
  | .typeError m => ⟨500, .internalError "Internal Server Error" m⟩

/-- The complete PUT handler: the `try` body plus the `catch` that turns
escaped errors into responses. Effects performed before a throw persist. -/
def putHandler (id : Nat) (bodyInput : BodyInput) (session : User) (now : Nat)
    (db : DB) : HttpResponse × DB × List DbEffect :=
  match runPut id bodyInput session now db with
  | (.ok r, db1, fx) => (r, db1, fx)
  | (.error e, db1, fx) => (catchResponse e, db1, fx)

/-! ### Lemmas about decimal digits and padding -/

theorem natDigitsAux_fuel_irrel (fuel : Nat) : ∀ fuel' n, n < fuel → n < fuel' →
    natDigitsAux fuel n = natDigitsAux fuel' n := by
  induction fuel with
  | zero => intro fuel' n h; omega
  | succ f ih =>
      intro fuel' n h h'
      match fuel', h' with
      | f' + 1, h' =>
        simp only [natDigitsAux]
        by_cases h10 : n < 10
        · simp [h10]
        · have hd : n / 10 < n := Nat.div_lt_self (by omega) (by omega)
          simp only [h10, if_false]
          rw [ih f' (n / 10) (by omega) (by omega)]

theorem natDigits_eq_ite (n : Nat) :
    natDigits n = if n < 10 then [digitChar n]
      else natDigits (n / 10) ++ [digitChar (n % 10)] := by
  by_cases h10 : n < 10
  · simp [natDigits, natDigitsAux, h10]
  · have hd : n / 10 < n := Nat.div_lt_self (by omega) (by omega)
    have h1 : natDigits n = natDigitsAux n (n / 10) ++ [digitChar (n % 10)] := by
      simp only [natDigits, natDigitsAux, h10, if_false]
    rw [h1, natDigitsAux_fuel_irrel n (n / 10 + 1) (n / 10) (by omega) (by omega)]
    simp [natDigits, h10]

theorem natDigits_ne_nil (n : Nat) : natDigits n ≠ [] := by
  rw [natDigits_eq_ite]
  by_cases h10 : n < 10 <;> simp [h10]

theorem digitChar_isDigit {n : Nat} (h : n < 10) :
    (digitChar n).isDigit = true := by
  interval_cases n <;> decide

theorem digitChar_toNat {n : Nat} (h : n < 10) :
    (digitChar n).toNat = 48 + n := by
  interval_cases n <;> decide

theorem natDigits_all_digits (n : Nat) :
    ∀ c ∈ natDigits n, c.isDigit = true := by
  induction n using Nat.strong_induction_on with
  | _ n ih =>
      rw [natDigits_eq_ite]
      by_cases h10 : n < 10
      · simp only [h10, if_true, List.mem_singleton]
        rintro c rfl
        exact digitChar_isDigit h10
      · have hd : n / 10 < n := Nat.div_lt_self (by omega) (by omega)
        simp only [h10, if_false, List.mem_append, List.mem_singleton]
        rintro c (hc | rfl)
        · exact ih (n / 10) hd c hc
        · exact digitChar_isDigit (Nat.mod_lt n (by omega))

theorem natDigits_length_le (w : Nat) : ∀ n, 1 ≤ w → n < 10 ^ w →
    (natDigits n).length ≤ w := by
  induction w with
  | zero => intro n h; omega
  | succ w ih =>
      intro n _ hn
      rw [natDigits_eq_ite]
      by_cases h10 : n < 10
      · simp [h10]
      · have hw : 1 ≤ w := by
          by_contra h
          have : w = 0 := by omega
          subst this; simp [pow_succ] at hn; omega
        have hq : n / 10 < 10 ^ w := by
          rw [Nat.div_lt_iff_lt_mul (by omega)]
          calc n < 10 ^ (w + 1) := hn
            _ = 10 ^ w * 10 := by ring
        simp only [h10, if_false, List.length_append, List.length_singleton]
        have := ih (n / 10) hw hq
        omega

/-- Numeric value of a digit string (base 10, most significant first). -/
def digitsVal (l : List Char) : Nat :=
  l.foldl (fun a c => a * 10 + (c.toNat - 48)) 0

theorem digitsVal_append_digit (l : List Char) (c : Char) :
    digitsVal (l ++ [c]) = digitsVal l * 10 + (c.toNat - 48) := by
  simp [digitsVal, List.foldl_append]

theorem digitsVal_natDigits (n : Nat) : digitsVal (natDigits n) = n := by
  induction n using Nat.strong_induction_on with
  | _ n ih =>
      rw [natDigits_eq_ite]
      by_cases h10 : n < 10
      · simp [h10, digitsVal, digitChar_toNat h10]
      · have hd : n / 10 < n := Nat.div_lt_self (by omega) (by omega)
        simp only [h10, if_false, digitsVal_append_digit]
        rw [ih (n / 10) hd, digitChar_toNat (Nat.mod_lt n (by omega))]
        omega

theorem padNat_length {w n : Nat} (h1 : 1 ≤ w) (h : n < 10 ^ w) :
    (padNat w n).length = w := by
  have := natDigits_length_le w n h1 h
  simp only [padNat, List.length_append, List.length_replicate]
  omega

theorem padNat_all_digits (w n : Nat) :
    ∀ c ∈ padNat w n, c.isDigit = true := by
  simp only [padNat, List.mem_append, List.mem_replicate]
  rintro c (⟨-, rfl⟩ | hc)
  · decide
  · exact natDigits_all_digits n c hc

/-! ### Lemmas about the calendar search -/

theorem daysInYear_eq (y : Nat) : daysInYear y =
    if (y % 4 = 0 ∧ y % 100 ≠ 0) ∨ y % 400 = 0 then 366 else 365 := by
  unfold daysInYear isLeap
  by_cases h4 : y % 4 = 0 <;> by_cases h100 : y % 100 = 0 <;>
    by_cases h400 : y % 400 = 0 <;> simp [h4, h100, h400]

theorem daysInYear_pos (y : Nat) : 365 ≤ daysInYear y := by
  rw [daysInYear_eq]; split <;> omega

theorem daysInYear_le (y : Nat) : daysInYear y ≤ 366 := by
  rw [daysInYear_eq]; split <;> omega

theorem monthLen_pos (y m : Nat) : 28 ≤ monthLen y m := by
  unfold monthLen; split_ifs <;> omega

theorem monthLen_le (y m : Nat) : monthLen y m ≤ 31 := by
  unfold monthLen; split_ifs <;> omega

/-- Days from 1970-01-01 to the start of year `1970 + n`. -/
def daysToYears : Nat → Nat
  | 0 => 0
  | n + 1 => daysToYears n + daysInYear (1970 + n)

theorem daysToYears_closed (n : Nat) :
    daysToYears n + 492 + (1969 + n) / 100 + 4 =
      365 * n + (1969 + n) / 4 + 19 + (1969 + n) / 400 := by
  induction n with
  | zero => simp [daysToYears]
  | succ n ih =>
      have h : daysToYears (n + 1) = daysToYears n + daysInYear (1970 + n) := rfl
      have hnorm : 1969 + (n + 1) = 1970 + n := by omega
      rw [h, daysInYear_eq, hnorm]
      clear h hnorm
      split
      · next hc => rcases hc with ⟨h4, h100⟩ | h400 <;> omega
      · next hc =>
          push_neg at hc
          obtain ⟨hd, h400⟩ := hc
          by_cases h4 : (1970 + n) % 4 = 0
          · have h100 := hd h4
            omega
          · omega

theorem daysToYears_8030 : daysToYears 8030 = 2932897 := by
  have h := daysToYears_closed 8030
  norm_num at h
  omega

theorem daysToYears_mono : Monotone daysToYears := by
  apply monotone_nat_of_le_succ
  intro n
  have h : daysToYears (n + 1) = daysToYears n + daysInYear (1970 + n) := rfl
  omega

theorem yearLoop_spec (fuel : Nat) : ∀ n d, ∃ n',
    (yearLoop fuel (1970 + n) d).1 = 1970 + n' ∧
    daysToYears n' + (yearLoop fuel (1970 + n) d).2 = daysToYears n + d := by
  induction fuel with
  | zero => intro n d; exact ⟨n, rfl, rfl⟩
  | succ f ih =>
      intro n d
      simp only [yearLoop]
      by_cases h : d < daysInYear (1970 + n)
      · exact ⟨n, by simp [h], by simp [h]⟩
      · simp only [h, if_false]
        have h2 : 1970 + n + 1 = 1970 + (n + 1) := by omega
        rw [h2]
        obtain ⟨n', h1', h2'⟩ := ih (n + 1) (d - daysInYear (1970 + n))
        refine ⟨n', h1', ?_⟩
        have h3 : daysToYears (n + 1) = daysToYears n + daysInYear (1970 + n) := rfl
        omega

theorem yearLoop_lt (fuel : Nat) : ∀ y d, d < fuel →
    (yearLoop fuel y d).2 < daysInYear (yearLoop fuel y d).1 := by
  induction fuel with
  | zero => intro y d h; omega
  | succ f ih =>
      intro y d h
      simp only [yearLoop]
      by_cases hd : d < daysInYear y
      · simp [hd]
      · simp only [hd, if_false]
        apply ih
        have := daysInYear_pos y
        omega

theorem monthLoop_m_le (fuel : Nat) : ∀ y m d, (monthLoop fuel y m d).1 ≤ m + fuel := by
  induction fuel with
  | zero => intro y m d; simp [monthLoop]
  | succ f ih =>
      intro y m d
      simp only [monthLoop]
      by_cases h : d < monthLen y m
      · simp only [h, if_true]; omega
      · simp only [h, if_false]
        have := ih y (m + 1) (d - monthLen y m)
        omega

theorem monthLoop_d_bound (fuel : Nat) : ∀ y m d,
    (monthLoop fuel y m d).2 < monthLen y (monthLoop fuel y m d).1 ∨
    (monthLoop fuel y m d).2 + 28 * fuel ≤ d := by
  induction fuel with
  | zero => intro y m d; right; simp [monthLoop]
  | succ f ih =>
      intro y m d
      simp only [monthLoop]
      by_cases h : d < monthLen y m
      · left; simp [h]
      · simp only [h, if_false]
        rcases ih y (m + 1) (d - monthLen y m) with h1 | h1
        · left; exact h1
        · right
          have := monthLen_pos y m
          omega

theorem civilFromDays_bounds {days : Nat} (h : days ≤ 2932896) :
    (civilFromDays days).1 < 10000 ∧ (civilFromDays days).2.1 < 100 ∧
    (civilFromDays days).2.2 < 100 := by
  have hs := yearLoop_spec (days + 1) 0 days
  simp only [Nat.add_zero] at hs
  obtain ⟨n', hy, hsum⟩ := hs
  have h0 : daysToYears 0 = 0 := rfl
  rw [h0] at hsum
  have hlt := yearLoop_lt (days + 1) 1970 days (by omega)
  have hn' : n' < 8030 := by
    by_contra hge
    have hm := daysToYears_mono (by omega : 8030 ≤ n')
    have h8030 := daysToYears_8030
    omega
  have hdy := daysInYear_le (yearLoop (days + 1) 1970 days).1
  have hml := monthLoop_m_le 11 (yearLoop (days + 1) 1970 days).1 1
    (yearLoop (days + 1) 1970 days).2
  have hmd := monthLoop_d_bound 11 (yearLoop (days + 1) 1970 days).1 1
    (yearLoop (days + 1) 1970 days).2
  have hml31 := monthLen_le (yearLoop (days + 1) 1970 days).1
    (monthLoop 11 (yearLoop (days + 1) 1970 days).1 1
      (yearLoop (days + 1) 1970 days).2).1
  simp only [civilFromDays]
  rcases hmd with hm1 | hm2
  · exact ⟨by omega, by omega, by omega⟩
  · exact ⟨by omega, by omega, by omega⟩

/-! ### Shape of the serialized output -/

theorem pad_decomp_two {n : Nat} (h : n < 100) :
    ∃ a b, padNat 2 n = [a, b] ∧ a.isDigit = true ∧ b.isDigit = true := by
  have hp : (10 : Nat) ^ 2 = 100 := by norm_num
  have hlen : (padNat 2 n).length = 2 := padNat_length (by omega) (by rw [hp]; exact h)
  obtain ⟨a, b, hab⟩ := List.length_eq_two.mp hlen
  have hdig := padNat_all_digits 2 n
  rw [hab] at hdig
  exact ⟨a, b, hab, hdig a (by simp), hdig b (by simp)⟩

theorem pad_decomp_three {n : Nat} (h : n < 1000) :
    ∃ a b c, padNat 3 n = [a, b, c] ∧ a.isDigit = true ∧ b.isDigit = true ∧
      c.isDigit = true := by
  have hp : (10 : Nat) ^ 3 = 1000 := by norm_num
  have hlen : (padNat 3 n).length = 3 := padNat_length (by omega) (by rw [hp]; exact h)
  obtain ⟨a, b, c, habc⟩ := List.length_eq_three.mp hlen
  have hdig := padNat_all_digits 3 n
  rw [habc] at hdig
  exact ⟨a, b, c, habc, hdig a (by simp), hdig b (by simp), hdig c (by simp)⟩

theorem pad_decomp_four {n : Nat} (h : n < 10000) :
    ∃ a b c d, padNat 4 n = [a, b, c, d] ∧ a.isDigit = true ∧ b.isDigit = true ∧
      c.isDigit = true ∧ d.isDigit = true := by
  have hp : (10 : Nat) ^ 4 = 10000 := by norm_num
  have hlen : (padNat 4 n).length = 4 := padNat_length (by omega) (by rw [hp]; exact h)
  obtain ⟨a, t, hat⟩ := List.exists_of_length_succ (padNat 4 n) hlen
  have ht3 : t.length = 3 := by rw [hat] at hlen; simpa using hlen
  obtain ⟨b, c, d, hbcd⟩ := List.length_eq_three.mp ht3
  have hdig := padNat_all_digits 4 n
  rw [hat, hbcd] at hdig
  refine ⟨a, b, c, d, by rw [hat, hbcd], ?_, ?_, ?_, ?_⟩ <;>
    apply hdig <;> simp

/-- The `YYYY-MM-DDTHH:mm:ss.sssZ` shape of a character list: 24
characters, digits in the numeric positions, the fixed separators
elsewhere. -/
def isoShape : List Char → Bool
  | [y1, y2, y3, y4, '-', o1, o2, '-', d1, d2, 'T', h1, h2, ':', i1, i2, ':',
     s1, s2, '.', f1, f2, f3, 'Z'] =>
      y1.isDigit && y2.isDigit && y3.isDigit && y4.isDigit && o1.isDigit &&
      o2.isDigit && d1.isDigit && d2.isDigit && h1.isDigit && h2.isDigit &&
      i1.isDigit && i2.isDigit && s1.isDigit && s2.isDigit && f1.isDigit &&
      f2.isDigit && f3.isDigit
  | _ => false

/-- ISO-8601 date-time shape of a string, as produced by
`Date.prototype.toISOString`. -/
def isISO8601 (s : String) : Bool := isoShape s.data

theorem isoShape_assemble {y mo d h mi s ms : Nat}
    (hy : y < 10000) (hmo : mo < 100) (hd : d < 100) (hh : h < 100)
    (hmi : mi < 100) (hs : s < 100) (hms : ms < 1000) :
    isoShape (padNat 4 y ++ '-' :: padNat 2 mo ++ '-' :: padNat 2 d ++
      'T' :: padNat 2 h ++ ':' :: padNat 2 mi ++ ':' :: padNat 2 s ++
      '.' :: padNat 3 ms ++ ['Z']) = true := by
  obtain ⟨y1, y2, y3, y4, hy4, hy1d, hy2d, hy3d, hy4d⟩ := pad_decomp_four hy
  obtain ⟨o1, o2, ho2, ho1d, ho2d⟩ := pad_decomp_two hmo
  obtain ⟨d1, d2, hd2, hd1d, hd2d⟩ := pad_decomp_two hd
  obtain ⟨h1, h2, hh2, hh1d, hh2d⟩ := pad_decomp_two hh
  obtain ⟨i1, i2, hi2, hi1d, hi2d⟩ := pad_decomp_two hmi
  obtain ⟨s1, s2, hs2, hs1d, hs2d⟩ := pad_decomp_two hs
  obtain ⟨f1, f2, f3, hf3, hf1d, hf2d, hf3d⟩ := pad_decomp_three hms
  rw [hy4, ho2, hd2, hh2, hi2, hs2, hf3]
  simp only [List.cons_append, List.nil_append]
  simp [isoShape, hy1d, hy2d, hy3d, hy4d, ho1d, ho2d, hd1d, hd2d, hh1d, hh2d,
    hi1d, hi2d, hs1d, hs2d, hf1d, hf2d, hf3d]

theorem isISO8601_toISOString {t : Nat} (h : t < 253402300800000) :
    isISO8601 (toISOString t) = true := by
  have hdays : t / 86400000 ≤ 2932896 := by omega
  obtain ⟨hy, hmo, hd⟩ := civilFromDays_bounds hdays
  have hh : t / 3600000 % 24 < 100 := by omega
  have hmi : t / 60000 % 60 < 100 := by omega
  have hs : t / 1000 % 60 < 100 := by omega
  have hms : t % 1000 < 1000 := by omega
  simp only [toISOString, isISO8601]
  exact isoShape_assemble hy hmo hd hh hmi hs hms

/-! ### Lemmas about the validation step -/

theorem zodParse_ok_not_falsy {j : Json} {p : ParsedBody}
    (h : zodParse j = .ok p) : jsFalsy j = false := by
  cases j with
  | null => simp [zodParse] at h
  | bool b => simp [zodParse] at h
  | num n => simp [zodParse] at h
  | str s => simp [zodParse] at h
  | arr elems => simp [zodParse] at h
  | obj fields => rfl

theorem zodParse_obj_ok_author {fields : List (String × Json)} {p : ParsedBody}
    (h : zodParse (.obj fields) = .ok p) :
    p.author_name = (checkOptMinStr fields "author_name").1 := by
  simp only [zodParse] at h
  split at h
  · injection h with h
    rw [← h]
  · simp at h

theorem checkOptMinStr_some_len {fields : List (String × Json)} {k nm : String}
    (h : (checkOptMinStr fields k).1 = some nm) : 1 ≤ nm.length := by
  unfold checkOptMinStr at h
  split at h
  · simp at h
  · split at h
    · next s hlen =>
        simp only at h
        injection h with h
        rw [← h]
        exact hlen
    · simp at h
  · simp at h

theorem zodParse_author_truthy {j : Json} {p : ParsedBody} {nm : String}
    (h : zodParse j = .ok p) (ha : p.author_name = some nm) : nm ≠ "" := by
  cases j with
  | null => simp [zodParse] at h
  | bool b => simp [zodParse] at h
  | num n => simp [zodParse] at h
  | str s => simp [zodParse] at h
  | arr elems => simp [zodParse] at h
  | obj fields =>
      rw [zodParse_obj_ok_author h] at ha
      have hlen := checkOptMinStr_some_len ha
      intro he
      rw [he] at hlen
      simp at hlen

theorem zodParse_error_ne_nil {j : Json} {es : List ZodIssue}
    (h : zodParse j = .error es) : es ≠ [] := by
  cases j with
  | null => simp [zodParse] at h; simp [← h]
  | bool b => simp [zodParse] at h; simp [← h]
  | num n => simp [zodParse] at h; simp [← h]
  | str s => simp [zodParse] at h; simp [← h]
  | arr elems => simp [zodParse] at h; simp [← h]
  | obj fields =>
      simp only [zodParse] at h
      split at h
      · simp at h
      · injection h with h
        simp [← h]

/-! ### Lemmas about the handler paths -/

theorem find?_writeThesis {l : List Thesis} {id : Nat} {t r : Thesis}
    (hf : l.find? (fun x => x.thesis_id == id) = some t) (hr : r.thesis_id = id) :
    (l.map (fun x => if x.thesis_id == id then r else x)).find?
      (fun x => x.thesis_id == id) = some r := by
  induction l with
  | nil => simp at hf
  | cons a l ih =>
      by_cases ha : (a.thesis_id == id) = true
      · have hr' : (r.thesis_id == id) = true := by simp [hr]
        simp only [List.map_cons]
        rw [if_pos ha]
        exact List.find?_cons_of_pos _ hr'
      · have h1 : List.find? (fun x => x.thesis_id == id) (a :: l) =
            List.find? (fun x => x.thesis_id == id) l :=
          List.find?_cons_of_neg _ ha
        rw [h1] at hf
        simp only [List.map_cons]
        rw [if_neg ha]
        have h2 : List.find? (fun x => x.thesis_id == id)
            (a :: List.map (fun x => if x.thesis_id == id then r else x) l) =
            List.find? (fun x => x.thesis_id == id)
              (List.map (fun x => if x.thesis_id == id then r else x) l) :=
          List.find?_cons_of_neg _ ha
        rw [h2]
        exact ih hf

theorem findThesis_writeThesis {db : DB} {id : Nat} {t r : Thesis}
    (hf : findThesis db id = some t) (hr : r.thesis_id = id) :
    findThesis (writeThesis db id r) id = some r :=
  find?_writeThesis hf hr

/-- Path taken when the body is valid but supplies no `author_name`: the
thesis row is written, then the response shaping throws a `TypeError`. -/
theorem runPut_no_author {id : Nat} {body : Json} {session : User} {now : Nat}
    {db : DB} {p : ParsedBody} {t : Thesis}
    (hz : zodParse body = .ok p) (ha : p.author_name = none)
    (ht : findThesis db id = some t) :
    runPut id (.json body) session now db =
      (.error (.typeError
          "Cannot read properties of undefined (reading username)"),
        writeThesis db id (mergeThesis t p none now),
        [.updateThesis id (mergeThesis t p none now)]) := by
  simp [runPut, zodParse_ok_not_falsy hz, hz, ha, ht]

/-- Path taken when the body is valid, supplies an `author_name`, and both
the thesis and the author exist: the full success path. -/
theorem runPut_success {id : Nat} {body : Json} {session : User} {now : Nat}
    {db : DB} {p : ParsedBody} {t : Thesis} {nm : String} {u : User}
    (hz : zodParse body = .ok p) (ha : p.author_name = some nm)
    (ht : findThesis db id = some t) (hu : findUser db nm = some u) :
    runPut id (.json body) session now db =
      (.ok ⟨200, .success "Thesis updated successfully"
          { thesis_id := bigIntToString (mergeThesis t p (some u.id) now).thesis_id
            title := (mergeThesis t p (some u.id) now).title
            author_name := u.username
            category := (mergeThesis t p (some u.id) now).category
            keywords := (mergeThesis t p (some u.id) now).keywords
            abstract := (mergeThesis t p (some u.id) now).abstract
            status := (mergeThesis t p (some u.id) now).status
            created_at := toISOString (mergeThesis t p (some u.id) now).created_at
            updated_at := toISOString (mergeThesis t p (some u.id) now).updated_at }⟩,
        { writeThesis db id (mergeThesis t p (some u.id) now) with
            history := db.history ++
              [⟨session.id, "Updated Thesis",
                "Thesis titled \"" ++ (mergeThesis t p (some u.id) now).title ++
                  "\" updated by " ++ session.email⟩] },
        [.updateThesis id (mergeThesis t p (some u.id) now),
          .insertHistory ⟨session.id, "Updated Thesis",
            "Thesis titled \"" ++ (mergeThesis t p (some u.id) now).title ++
              "\" updated by " ++ session.email⟩]) := by
  have hnm : nm ≠ "" := zodParse_author_truthy hz ha
  simp [runPut, zodParse_ok_not_falsy hz, hz, ha, ht, hu, hnm, writeThesis]

/-- Path taken when the body is valid, supplies an `author_name`, the
thesis exists, but no user has that username. -/
theorem runPut_author_missing {id : Nat} {body : Json} {session : User}
    {now : Nat} {db : DB} {p : ParsedBody} {t : Thesis} {nm : String}
    (hz : zodParse body = .ok p) (ha : p.author_name = some nm)
    (ht : findThesis db id = some t) (hu : findUser db nm = none) :
    runPut id (.json body) session now db =
      (.ok ⟨404, .messageOnly "Author not found"⟩, db, []) := by
  have hnm : nm ≠ "" := zodParse_author_truthy hz ha
  simp [runPut, zodParse_ok_not_falsy hz, hz, ha, ht, hu, hnm]

/-- Path taken when the body is valid but no thesis has the path id. -/
theorem runPut_thesis_missing {id : Nat} {body : Json} {session : User}
    {now : Nat} {db : DB} {p : ParsedBody}
    (hz : zodParse body = .ok p) (ht : findThesis db id = none) :
    runPut id (.json body) session now db =
      (.ok ⟨404, .messageOnly "Thesis not found"⟩, db, []) := by
  simp [runPut, zodParse_ok_not_falsy hz, hz, ht]

/-- Path taken when schema validation fails: the `ZodError` escapes the
`try` body before any lookup or write. -/
theorem runPut_zod_error {id : Nat} {body : Json} {session : User} {now : Nat}
    {db : DB} {es : List ZodIssue}
    (hz : zodParse body = .error es) (hfal : jsFalsy body = false) :
    runPut id (.json body) session now db = (.error (.zodError es), db, []) := by
  simp [runPut, hfal, hz]

theorem findThesis_id {db : DB} {id : Nat} {t : Thesis}
    (h : findThesis db id = some t) : t.thesis_id = id := by
  have h2 := List.find?_some h
  simpa using h2

theorem checkOptMinStr_path {fields : List (String × Json)} {k : String} :
    ∀ i ∈ (checkOptMinStr fields k).2, i.path.head? = some (.field k) := by
  intro i hi
  unfold checkOptMinStr at hi
  split at hi
  · simp at hi
  · split at hi
    · simp at hi
    · simp at hi
      simp [hi]
  · simp at hi
    simp [hi]

theorem checkOptStr_path {fields : List (String × Json)} {k : String} :
    ∀ i ∈ (checkOptStr fields k).2, i.path.head? = some (.field k) := by
  intro i hi
  unfold checkOptStr at hi
  split at hi
  · simp at hi
  · simp at hi
  · simp at hi
    simp [hi]

theorem checkOptEnum_path {fields : List (String × Json)} {k : String}
    {allowed : List String} :
    ∀ i ∈ (checkOptEnum fields k allowed).2, i.path.head? = some (.field k) := by
  intro i hi
  unfold checkOptEnum at hi
  split at hi
  · simp at hi
  · split at hi
    · simp at hi
    · simp at hi
      simp [hi]
  · simp at hi
    simp [hi]

theorem checkStrElems_path {k : String} : ∀ (elems : List Json) (n : Nat),
    ∀ i ∈ (checkStrElems k n elems).2, i.path.head? = some (.field k) := by
  intro elems
  induction elems with
  | nil => intro n i hi; simp [checkStrElems] at hi
  | cons j rest ih =>
      intro n i hi
      unfold checkStrElems at hi
      split at hi
      · exact ih (n + 1) i hi
      · simp only [List.mem_cons] at hi
        rcases hi with hi | hi
        · simp [hi]
        · exact ih (n + 1) i hi

theorem checkOptStrArray_path {fields : List (String × Json)} {k : String} :
    ∀ i ∈ (checkOptStrArray fields k).2, i.path.head? = some (.field k) := by
  intro i hi
  unfold checkOptStrArray at hi
  split at hi
  · simp at hi
  · split at hi
    · simp at hi
    · next vs e es heq =>
        have h2 : i ∈ (checkStrElems k 0 ‹List Json›).2 := by
          rw [heq]
          exact hi
        exact checkStrElems_path _ 0 i h2
  · simp at hi
    simp [hi]

theorem zodParse_obj_error_mem {fields : List (String × Json)} {es : List ZodIssue}
    (h : zodParse (.obj fields) = .error es) :
    ∀ i ∈ es, ∃ k, i.path.head? = some (.field k) ∧
      k ∈ ["title", "author_name", "category", "keywords", "abstract", "status"] := by
  intro i hi
  simp only [zodParse] at h
  split at h
  · simp at h
  · next e es0 heq =>
      injection h with h
      rw [← h] at hi
      rw [← heq] at hi
      simp only [List.mem_append] at hi
      rcases hi with ((((h1 | h2) | h3) | h4) | h5) | h6
      · exact ⟨"title", checkOptMinStr_path i h1, by simp⟩
      · exact ⟨"author_name", checkOptMinStr_path i h2, by simp⟩
      · exact ⟨"category", checkOptStr_path i h3, by simp⟩
      · exact ⟨"keywords", checkOptStrArray_path i h4, by simp⟩
      · exact ⟨"abstract", checkOptStr_path i h5, by simp⟩
      · exact ⟨"status", checkOptEnum_path i h6, by simp⟩

/-! ### Concrete sample data for witnesses -/

/-- Sample author row used by the concrete scenarios. -/
def alice : User := ⟨7, "alice", "alice@example.com"⟩

/-- Sample acting (session) user. -/
def adminUser : User := ⟨9, "admin", "admin@example.com"⟩

/-- Sample thesis titled "X" owned by `alice`. -/
def thesisX : Thesis := ⟨1, "X", "Math", ["graphs"], "An abstract", "Pending", 7, 0, 0⟩

/-- Sample store: one thesis, two users, empty history. -/
def sampleDB : DB := ⟨[thesisX], [alice, adminUser], []⟩

/-- The body `{"category": "AI"}`. -/
def catBody : Json := .obj [("category", .str "AI")]

/-- The body `{"author_name": "bob"}` (no such user in `sampleDB`). -/
def bobBody : Json := .obj [("author_name", .str "bob")]

/-- A body supplying every optional field with valid values. -/
def fullBody : Json := .obj [("title", .str "Y"), ("author_name", .str "alice"),
  ("category", .str "AI"), ("keywords", .arr [.str "a"]), ("abstract", .str "A"),
  ("status", .str "Approved")]

/-! ### The claims -/

/-- C1: the spec's scenario — PUT `{"category":"AI"}` on the existing thesis
titled "X" by author "alice" should return 200 with `author_name: "alice"`,
`category: "AI"` and unchanged title. The code does not: the thesis was
fetched without its `author` relation, so `thesis.author` is `undefined`
and the response shaping throws a `TypeError`; the handler answers 500
(after having already updated the row) and writes no audit entry. -/
theorem C1_scenario_returns_500_not_200 :
    (putHandler 1 (.json catBody) adminUser 99 sampleDB).1.status = 500 ∧
    (putHandler 1 (.json catBody) adminUser 99 sampleDB).1.body =
      .internalError "Internal Server Error"
        "Cannot read properties of undefined (reading username)" ∧
    findThesis (putHandler 1 (.json catBody) adminUser 99 sampleDB).2.1 1 =
      some ⟨1, "X", "AI", ["graphs"], "An abstract", "Pending", 7, 0, 99⟩ ∧
    (putHandler 1 (.json catBody) adminUser 99 sampleDB).2.1.history = [] :=
  ⟨rfl, rfl, rfl, rfl⟩

/-- C2: for every request whose body passes schema validation and omits
`author_name`, and whose path id matches an existing thesis, the handler
first persists the merged update (one `updateThesis` write), then fails
shaping the response (`thesis.author.username` on a record fetched without
the relation), answering 500 with no audit entry — the row is mutated even
though the caller gets an error. -/
theorem C2_update_persists_then_500 (id : Nat) (body : Json) (session : User)
    (now : Nat) (db : DB) (p : ParsedBody) (t : Thesis)
    (hz : zodParse body = .ok p) (ha : p.author_name = none)
    (ht : findThesis db id = some t) :
    putHandler id (.json body) session now db =
      (⟨500, .internalError "Internal Server Error"
          "Cannot read properties of undefined (reading username)"⟩,
        writeThesis db id (mergeThesis t p none now),
        [.updateThesis id (mergeThesis t p none now)]) ∧
    (putHandler id (.json body) session now db).2.1.history = db.history := by
  have key : putHandler id (.json body) session now db =
      (⟨500, .internalError "Internal Server Error"
          "Cannot read properties of undefined (reading username)"⟩,
        writeThesis db id (mergeThesis t p none now),
        [.updateThesis id (mergeThesis t p none now)]) := by
    unfold putHandler
    rw [runPut_no_author hz ha ht]
    rfl
  exact ⟨key, by rw [key]; rfl⟩

/-- C2 witness: the concrete scenario of C1 instantiates every hypothesis
of the C2 theorem. -/
theorem C2_update_persists_then_500_witness :
    putHandler 1 (.json catBody) adminUser 99 sampleDB =
      (⟨500, .internalError "Internal Server Error"
          "Cannot read properties of undefined (reading username)"⟩,
        writeThesis sampleDB 1
          (mergeThesis thesisX ⟨none, none, some "AI", none, none, none⟩ none 99),
        [.updateThesis 1
          (mergeThesis thesisX ⟨none, none, some "AI", none, none, none⟩ none 99)]) ∧
    (putHandler 1 (.json catBody) adminUser 99 sampleDB).2.1.history =
      sampleDB.history :=
  C2_update_persists_then_500 1 catBody adminUser 99 sampleDB
    ⟨none, none, some "AI", none, none, none⟩ thesisX rfl rfl rfl

/-- C3: the spec requires 400 for an empty or non-JSON body; in the code
`req.json()` throws a `SyntaxError` before the `if (!body)` 400 guard can
run, the error is not a `ZodError`, and the catch block answers 500. -/
theorem C3_empty_or_malformed_body_returns_500 :
    (putHandler 1 .malformed adminUser 99 sampleDB).1 =
      ⟨500, .internalError "Internal Server Error"
        "Unexpected end of JSON input"⟩ ∧
    (putHandler 1 .malformed adminUser 99 sampleDB).1.status ≠ 400 :=
  ⟨rfl, by decide⟩

/-- C4: for every schema-valid request supplying an `author_name` that
matches no user, on an existing thesis id, the handler answers 404
"Author not found", leaves the whole store untouched, and performs no
database write. -/
theorem C4_author_missing_404_no_mutation (id : Nat) (body : Json)
    (session : User) (now : Nat) (db : DB) (p : ParsedBody) (t : Thesis)
    (nm : String) (hz : zodParse body = .ok p) (ha : p.author_name = some nm)
    (ht : findThesis db id = some t) (hu : findUser db nm = none) :
    putHandler id (.json body) session now db =
      (⟨404, .messageOnly "Author not found"⟩, db, []) := by
  unfold putHandler
  rw [runPut_author_missing hz ha ht hu]

/-- C4 witness: `{"author_name":"bob"}` on `sampleDB`, where no user is
named "bob". -/
theorem C4_author_missing_404_no_mutation_witness :
    putHandler 1 (.json bobBody) adminUser 99 sampleDB =
      (⟨404, .messageOnly "Author not found"⟩, sampleDB, []) :=
  C4_author_missing_404_no_mutation 1 bobBody adminUser 99 sampleDB
    ⟨none, some "bob", none, none, none, none⟩ thesisX "bob" rfl rfl rfl rfl

/-- C5: for every schema-valid request whose path id matches no thesis,
the handler answers 404 "Thesis not found", leaves the store untouched
(in particular writes no audit entry), and performs no database write. -/
theorem C5_thesis_missing_404_no_writes (id : Nat) (body : Json)
    (session : User) (now : Nat) (db : DB) (p : ParsedBody)
    (hz : zodParse body = .ok p) (ht : findThesis db id = none) :
    putHandler id (.json body) session now db =
      (⟨404, .messageOnly "Thesis not found"⟩, db, []) := by
  unfold putHandler
  rw [runPut_thesis_missing hz ht]

/-- C5 witness: id 2 matches no thesis in `sampleDB`. -/
theorem C5_thesis_missing_404_no_writes_witness :
    putHandler 2 (.json catBody) adminUser 99 sampleDB =
      (⟨404, .messageOnly "Thesis not found"⟩, sampleDB, []) :=
  C5_thesis_missing_404_no_writes 2 catBody adminUser 99 sampleDB
    ⟨none, none, some "AI", none, none, none⟩ rfl rfl

/-- Success path of the whole handler (valid body, author supplied and
found, thesis found): response, store and effect list spelled out. -/
theorem putHandler_success {id : Nat} {body : Json} {session : User}
    {now : Nat} {db : DB} {p : ParsedBody} {t : Thesis} {nm : String} {u : User}
    (hz : zodParse body = .ok p) (ha : p.author_name = some nm)
    (ht : findThesis db id = some t) (hu : findUser db nm = some u) :
    putHandler id (.json body) session now db =
      (⟨200, .success "Thesis updated successfully"
          { thesis_id := bigIntToString (mergeThesis t p (some u.id) now).thesis_id
            title := (mergeThesis t p (some u.id) now).title
            author_name := u.username
            category := (mergeThesis t p (some u.id) now).category
            keywords := (mergeThesis t p (some u.id) now).keywords
            abstract := (mergeThesis t p (some u.id) now).abstract
            status := (mergeThesis t p (some u.id) now).status
            created_at := toISOString (mergeThesis t p (some u.id) now).created_at
            updated_at := toISOString (mergeThesis t p (some u.id) now).updated_at }⟩,
        { writeThesis db id (mergeThesis t p (some u.id) now) with
            history := db.history ++ [⟨session.id, "Updated Thesis",
              "Thesis titled \"" ++ (mergeThesis t p (some u.id) now).title ++
                "\" updated by " ++ session.email⟩] },
        [.updateThesis id (mergeThesis t p (some u.id) now),
          .insertHistory ⟨session.id, "Updated Thesis",
            "Thesis titled \"" ++ (mergeThesis t p (some u.id) now).title ++
              "\" updated by " ++ session.email⟩]) := by
  unfold putHandler
  rw [runPut_success hz ha ht hu]

/-- C6: every body that is a JSON object violating the schema (wrong field
type, empty title, status outside the enumeration) is answered with 400,
`message: "Validation failed"` and the non-empty `errors` list, each of
whose issues names the offending schema field at the head of its path;
nothing is looked up or written. -/
theorem C6_validation_400_with_field_errors (id : Nat)
    (fields : List (String × Json)) (session : User) (now : Nat) (db : DB)
    (es : List ZodIssue) (hz : zodParse (.obj fields) = .error es) :
    putHandler id (.json (.obj fields)) session now db =
      (⟨400, .validationError "Validation failed" es⟩, db, []) ∧
    es ≠ [] ∧
    ∀ i ∈ es, ∃ k, i.path.head? = some (.field k) ∧
      k ∈ ["title", "author_name", "category", "keywords", "abstract", "status"] := by
  refine ⟨?_, zodParse_error_ne_nil hz, zodParse_obj_error_mem hz⟩
  unfold putHandler
  rw [runPut_zod_error hz rfl]
  rfl

/-- C6 witness: the spec's scenario `{"status":"Archived"}`. -/
theorem C6_validation_400_with_field_errors_witness :
    putHandler 1 (.json (.obj [("status", .str "Archived")])) adminUser 99 sampleDB =
      (⟨400, .validationError "Validation failed"
        [⟨"invalid_enum_value", [.field "status"], "Invalid enum value"⟩]⟩,
        sampleDB, []) ∧
    ([⟨"invalid_enum_value", [.field "status"], "Invalid enum value"⟩] :
      List ZodIssue) ≠ [] ∧
    ∀ i ∈ ([⟨"invalid_enum_value", [.field "status"], "Invalid enum value"⟩] :
      List ZodIssue), ∃ k, i.path.head? = some (.field k) ∧
      k ∈ ["title", "author_name", "category", "keywords", "abstract", "status"] :=
  C6_validation_400_with_field_errors 1 [("status", .str "Archived")] adminUser
    99 sampleDB [⟨"invalid_enum_value", [.field "status"], "Invalid enum value"⟩] rfl

/-- C7: merge-patch semantics of the stored row — for every schema-valid
body on an existing thesis, after the update each field present in the
body holds the body's value and each absent field holds the prior stored
value (`Option.getD`), the id and `created_at` are untouched, and the
author id is replaced only when an `author_name` was supplied and
resolved. Stated for both author cases. -/
theorem C7_merge_patch_stored_row (id : Nat) (body : Json) (session : User)
    (now : Nat) (db : DB) (p : ParsedBody) (t : Thesis)
    (hz : zodParse body = .ok p) (ht : findThesis db id = some t) :
    (p.author_name = none →
      findThesis (putHandler id (.json body) session now db).2.1 id =
        some ⟨t.thesis_id, p.title.getD t.title, p.category.getD t.category,
          p.keywords.getD t.keywords, p.abstract.getD t.abstract,
          p.status.getD t.status, t.author_id, t.created_at, now⟩) ∧
    (∀ nm u, p.author_name = some nm → findUser db nm = some u →
      findThesis (putHandler id (.json body) session now db).2.1 id =
        some ⟨t.thesis_id, p.title.getD t.title, p.category.getD t.category,
          p.keywords.getD t.keywords, p.abstract.getD t.abstract,
          p.status.getD t.status, u.id, t.created_at, now⟩) := by
  constructor
  · intro ha
    have key : putHandler id (.json body) session now db =
        (⟨500, .internalError "Internal Server Error"
            "Cannot read properties of undefined (reading username)"⟩,
          writeThesis db id (mergeThesis t p none now),
          [.updateThesis id (mergeThesis t p none now)]) := by
      unfold putHandler
      rw [runPut_no_author hz ha ht]
      rfl
    rw [key]
    have hid0 : t.thesis_id = id := findThesis_id ht
    have hid : (mergeThesis t p none now).thesis_id = id := hid0
    exact findThesis_writeThesis ht hid
  · intro nm u ha hu
    rw [putHandler_success hz ha ht hu]
    have hid0 : t.thesis_id = id := findThesis_id ht
    have hid : (mergeThesis t p (some u.id) now).thesis_id = id := hid0
    exact findThesis_writeThesis ht hid

/-- C7 witness: `{"category":"AI"}` (author omitted) on `sampleDB`. -/
theorem C7_merge_patch_stored_row_witness :
    ((⟨none, none, some "AI", none, none, none⟩ : ParsedBody).author_name = none →
      findThesis (putHandler 1 (.json catBody) adminUser 99 sampleDB).2.1 1 =
        some ⟨thesisX.thesis_id,
          (⟨none, none, some "AI", none, none, none⟩ : ParsedBody).title.getD thesisX.title,
          (⟨none, none, some "AI", none, none, none⟩ : ParsedBody).category.getD thesisX.category,
          (⟨none, none, some "AI", none, none, none⟩ : ParsedBody).keywords.getD thesisX.keywords,
          (⟨none, none, some "AI", none, none, none⟩ : ParsedBody).abstract.getD thesisX.abstract,
          (⟨none, none, some "AI", none, none, none⟩ : ParsedBody).status.getD thesisX.status,
          thesisX.author_id, thesisX.created_at, 99⟩) ∧
    (∀ nm u, (⟨none, none, some "AI", none, none, none⟩ : ParsedBody).author_name = some nm →
      findUser sampleDB nm = some u →
      findThesis (putHandler 1 (.json catBody) adminUser 99 sampleDB).2.1 1 =
        some ⟨thesisX.thesis_id,
          (⟨none, none, some "AI", none, none, none⟩ : ParsedBody).title.getD thesisX.title,
          (⟨none, none, some "AI", none, none, none⟩ : ParsedBody).category.getD thesisX.category,
          (⟨none, none, some "AI", none, none, none⟩ : ParsedBody).keywords.getD thesisX.keywords,
          (⟨none, none, some "AI", none, none, none⟩ : ParsedBody).abstract.getD thesisX.abstract,
          (⟨none, none, some "AI", none, none, none⟩ : ParsedBody).status.getD thesisX.status,
          u.id, thesisX.created_at, 99⟩) :=
  C7_merge_patch_stored_row 1 catBody adminUser 99 sampleDB
    ⟨none, none, some "AI", none, none, none⟩ thesisX rfl rfl

/-- C8: idempotence of a full payload — for every schema-valid body that
supplies every optional field (with an `author_name` resolving to an
existing user), applying the same payload twice to an existing thesis
leaves the stored row after the second call equal, field for field, to the
row after the first call, except possibly `updated_at`. -/
theorem C8_full_payload_idempotent (id : Nat) (body : Json) (session : User)
    (now1 now2 : Nat) (db : DB) (p : ParsedBody) (t : Thesis) (nm : String)
    (u : User) (ti ca ab st : String) (kw : List String)
    (hz : zodParse body = .ok p) (ha : p.author_name = some nm)
    (hti : p.title = some ti) (hca : p.category = some ca)
    (hkw : p.keywords = some kw) (hab : p.abstract = some ab)
    (hst : p.status = some st)
    (ht : findThesis db id = some t) (hu : findUser db nm = some u) :
    ∃ t1 t2,
      findThesis (putHandler id (.json body) session now1 db).2.1 id = some t1 ∧
      findThesis (putHandler id (.json body) session now2
        (putHandler id (.json body) session now1 db).2.1).2.1 id = some t2 ∧
      t2.thesis_id = t1.thesis_id ∧ t2.title = t1.title ∧
      t2.category = t1.category ∧ t2.keywords = t1.keywords ∧
      t2.abstract = t1.abstract ∧ t2.status = t1.status ∧
      t2.author_id = t1.author_id ∧ t2.created_at = t1.created_at := by
  have hid0 : t.thesis_id = id := findThesis_id ht
  have hid1 : (mergeThesis t p (some u.id) now1).thesis_id = id := hid0
  have hf1 : findThesis (putHandler id (.json body) session now1 db).2.1 id =
      some (mergeThesis t p (some u.id) now1) := by
    rw [putHandler_success hz ha ht hu]
    exact findThesis_writeThesis ht hid1
  have hu1 : findUser (putHandler id (.json body) session now1 db).2.1 nm =
      some u := by
    rw [putHandler_success hz ha ht hu]
    exact hu
  have hid2 : (mergeThesis (mergeThesis t p (some u.id) now1) p (some u.id)
      now2).thesis_id = id := hid0
  have hf2 : findThesis (putHandler id (.json body) session now2
      (putHandler id (.json body) session now1 db).2.1).2.1 id =
      some (mergeThesis (mergeThesis t p (some u.id) now1) p (some u.id) now2) := by
    rw [putHandler_success hz ha hf1 hu1]
    exact findThesis_writeThesis hf1 hid2
  refine ⟨mergeThesis t p (some u.id) now1,
    mergeThesis (mergeThesis t p (some u.id) now1) p (some u.id) now2,
    hf1, hf2, ?_, ?_, ?_, ?_, ?_, ?_, ?_, ?_⟩ <;>
    simp [mergeThesis, hti, hca, hkw, hab, hst]

/-- C8 witness: the full payload applied twice to `sampleDB`. -/
theorem C8_full_payload_idempotent_witness :
    ∃ t1 t2,
      findThesis (putHandler 1 (.json fullBody) adminUser 50 sampleDB).2.1 1 =
        some t1 ∧
      findThesis (putHandler 1 (.json fullBody) adminUser 60
        (putHandler 1 (.json fullBody) adminUser 50 sampleDB).2.1).2.1 1 =
        some t2 ∧
      t2.thesis_id = t1.thesis_id ∧ t2.title = t1.title ∧
      t2.category = t1.category ∧ t2.keywords = t1.keywords ∧
      t2.abstract = t1.abstract ∧ t2.status = t1.status ∧
      t2.author_id = t1.author_id ∧ t2.created_at = t1.created_at :=
  C8_full_payload_idempotent 1 fullBody adminUser 50 60 sampleDB
    ⟨some "Y", some "alice", some "AI", some ["a"], some "A", some "Approved"⟩
    thesisX "alice" alice "Y" "AI" "A" "Approved" ["a"]
    rfl rfl rfl rfl rfl rfl rfl rfl rfl

/-- C9: on the success path (the only path that returns 200), the response
body's thesis object serializes `thesis_id` as the decimal digit string of
the stored id (non-empty, all digit characters, decoding back to the id)
and serializes `created_at` and `updated_at` through `toISOString`, whose
output has the ISO-8601 `YYYY-MM-DDTHH:mm:ss.sssZ` shape (for time values
up to year 9999, the range `Date.prototype.toISOString` covers with this
fixed-width format). -/
theorem C9_success_serialization (id : Nat) (body : Json) (session : User)
    (now : Nat) (db : DB) (p : ParsedBody) (t : Thesis) (nm : String)
    (u : User) (hz : zodParse body = .ok p) (ha : p.author_name = some nm)
    (ht : findThesis db id = some t) (hu : findUser db nm = some u)
    (hc : t.created_at < 253402300800000) (hn : now < 253402300800000) :
    (putHandler id (.json body) session now db).1.status = 200 ∧
    ∃ tr, (putHandler id (.json body) session now db).1.body =
        .success "Thesis updated successfully" tr ∧
      tr.thesis_id = bigIntToString t.thesis_id ∧
      tr.thesis_id.data ≠ [] ∧
      (∀ c ∈ tr.thesis_id.data, c.isDigit = true) ∧
      digitsVal tr.thesis_id.data = t.thesis_id ∧
      tr.created_at = toISOString t.created_at ∧
      tr.updated_at = toISOString now ∧
      isISO8601 tr.created_at = true ∧
      isISO8601 tr.updated_at = true := by
  rw [putHandler_success hz ha ht hu]
  refine ⟨rfl, _, rfl, rfl, natDigits_ne_nil _, natDigits_all_digits _,
    digitsVal_natDigits _, rfl, rfl, isISO8601_toISOString hc,
    isISO8601_toISOString hn⟩

/-- C9 witness: the full payload on `sampleDB` (timestamps 0 and 50). -/
theorem C9_success_serialization_witness :
    (putHandler 1 (.json fullBody) adminUser 50 sampleDB).1.status = 200 ∧
    ∃ tr, (putHandler 1 (.json fullBody) adminUser 50 sampleDB).1.body =
        .success "Thesis updated successfully" tr ∧
      tr.thesis_id = bigIntToString thesisX.thesis_id ∧
      tr.thesis_id.data ≠ [] ∧
      (∀ c ∈ tr.thesis_id.data, c.isDigit = true) ∧
      digitsVal tr.thesis_id.data = thesisX.thesis_id ∧
      tr.created_at = toISOString thesisX.created_at ∧
      tr.updated_at = toISOString 50 ∧
      isISO8601 tr.created_at = true ∧
      isISO8601 tr.updated_at = true :=
  C9_success_serialization 1 fullBody adminUser 50 sampleDB
    ⟨some "Y", some "alice", some "AI", some ["a"], some "A", some "Approved"⟩
    thesisX "alice" alice rfl rfl rfl rfl (by decide) (by decide)

/-- C10: every successful (200) call performs exactly one thesis update
followed by exactly one history insert — nothing else — and the inserted
audit entry's description contains the updated thesis's title and the
session user's email (as infix and suffix of the description text). -/
theorem C10_one_update_one_audit (id : Nat) (body : Json) (session : User)
    (now : Nat) (db : DB) (p : ParsedBody) (t : Thesis) (nm : String)
    (u : User) (hz : zodParse body = .ok p) (ha : p.author_name = some nm)
    (ht : findThesis db id = some t) (hu : findUser db nm = some u) :
    (putHandler id (.json body) session now db).1.status = 200 ∧
    (putHandler id (.json body) session now db).2.2 =
      [.updateThesis id (mergeThesis t p (some u.id) now),
        .insertHistory ⟨session.id, "Updated Thesis",
          "Thesis titled \"" ++ (mergeThesis t p (some u.id) now).title ++
            "\" updated by " ++ session.email⟩] ∧
    (putHandler id (.json body) session now db).2.1.history =
      db.history ++ [⟨session.id, "Updated Thesis",
        "Thesis titled \"" ++ (mergeThesis t p (some u.id) now).title ++
          "\" updated by " ++ session.email⟩] ∧
    (∃ a b, ("Thesis titled \"" ++ (mergeThesis t p (some u.id) now).title ++
        "\" updated by " ++ session.email).data =
      a ++ (mergeThesis t p (some u.id) now).title.data ++ b) ∧
    (∃ a, ("Thesis titled \"" ++ (mergeThesis t p (some u.id) now).title ++
        "\" updated by " ++ session.email).data = a ++ session.email.data) := by
  rw [putHandler_success hz ha ht hu]
  refine ⟨rfl, rfl, rfl,
    ⟨("Thesis titled \"").data, ("\" updated by " ++ session.email).data, ?_⟩,
    ⟨("Thesis titled \"" ++ (mergeThesis t p (some u.id) now).title ++
        "\" updated by ").data, ?_⟩⟩ <;>
    simp

/-- C10 witness: the full payload on `sampleDB`. -/
theorem C10_one_update_one_audit_witness :
    (putHandler 1 (.json fullBody) adminUser 50 sampleDB).1.status = 200 ∧
    (putHandler 1 (.json fullBody) adminUser 50 sampleDB).2.2 =
      [.updateThesis 1 (mergeThesis thesisX
          ⟨some "Y", some "alice", some "AI", some ["a"], some "A", some "Approved"⟩
          (some alice.id) 50),
        .insertHistory ⟨adminUser.id, "Updated Thesis",
          "Thesis titled \"" ++ (mergeThesis thesisX
            ⟨some "Y", some "alice", some "AI", some ["a"], some "A", some "Approved"⟩
            (some alice.id) 50).title ++ "\" updated by " ++ adminUser.email⟩] ∧
    (putHandler 1 (.json fullBody) adminUser 50 sampleDB).2.1.history =
      sampleDB.history ++ [⟨adminUser.id, "Updated Thesis",
        "Thesis titled \"" ++ (mergeThesis thesisX
          ⟨some "Y", some "alice", some "AI", some ["a"], some "A", some "Approved"⟩
          (some alice.id) 50).title ++ "\" updated by " ++ adminUser.email⟩] ∧
    (∃ a b, ("Thesis titled \"" ++ (mergeThesis thesisX
        ⟨some "Y", some "alice", some "AI", some ["a"], some "A", some "Approved"⟩
        (some alice.id) 50).title ++ "\" updated by " ++ adminUser.email).data =
      a ++ (mergeThesis thesisX
        ⟨some "Y", some "alice", some "AI", some ["a"], some "A", some "Approved"⟩
        (some alice.id) 50).title.data ++ b) ∧
    (∃ a, ("Thesis titled \"" ++ (mergeThesis thesisX
        ⟨some "Y", some "alice", some "AI", some ["a"], some "A", some "Approved"⟩
        (some alice.id) 50).title ++ "\" updated by " ++ adminUser.email).data =
      a ++ adminUser.email.data) :=
  C10_one_update_one_audit 1 fullBody adminUser 50 sampleDB
    ⟨some "Y", some "alice", some "AI", some ["a"], some "A", some "Approved"⟩
    thesisX "alice" alice rfl rfl rfl rfl
